import Mathlib

/-!
Verification development for the `AF2NotebookAnalyser` orchestration core of
`pyrosetta_help` (`pyrosetta_help/alphafold/multimodel.py`).

The shallow embedding below translates the bookkeeping / orchestration logic of
the source file into executable Lean definitions:

* Python dictionaries keyed by rank become insertion-ordered association lists
  (`PoseMap`), matching CPython dict semantics (update in place keeps the key
  position, a new key is appended).
* The pandas `DataFrame` catalog becomes `DataFrame`: the `rank` column plus a
  list of named columns of `PyVal` cells.
* External PyRosetta collaborators (structure parsing, `FastRelax`,
  selectors, `InterfaceAnalyzerMover`, the constraint generators) are black
  boxes per the spec; their observable effects are recorded on the `Pose`
  value (refinement passes applied, constraints added) and their outputs are
  carried as opaque per-pose data (`bf`, `inters`, `ifaceStats`).
* Fallible code returns `Except PyErr`; Python `float` values that may be NaN
  are `PyNum` / `Option ℚ` (NaN compares false against everything, which the
  embedding makes explicit).
* Regular-expression scans that the claims exercise
  (`(\w)(\d+)\-(\w+)` in `parse_phosphosite`, the substring test
  `'unrelaxed' in state`, `rank(\d+)\.pdb` in `load`) are implemented
  character by character with Python `re` leftmost / greedy / non-overlapping
  semantics.
-/

namespace AF2

/-- Python exception taxonomy used by the translated code paths. -/
inductive PyErr where
  | fileNotFound (path : String)
  | assertionError (msg : String)
  | valueError (msg : String)
  | keyError (key : Nat)
  | keyErrorStr (key : String)
  | attributeError (msg : String)
  | typeError (msg : String)
  | loadError (path : String)
  | unsupportedOperation (msg : String)
deriving DecidableEq, Repr

/-! ## Character and string utilities (Python `re` / `in` semantics) -/

/-- Python `\w` on the ASCII inputs used here: letter, digit or underscore. -/
def isWordChar (c : Char) : Bool := c.isAlpha || c.isDigit || c == '_'

/-- Numeric value of a digit run (`int(...)` on the captured group). -/
def natOfDigits (ds : List Char) : Nat :=
  ds.foldl (fun n c => n * 10 + (c.toNat - 48)) 0

/-- Python `needle in hay` substring test on character lists. -/
def subIn (needle : List Char) : List Char → Bool
  | [] => needle.isEmpty
  | c :: rest => needle.isPrefixOf (c :: rest) || subIn needle rest

/-- One `re.findall('(\w)(\d+)\-(\w+)', ...)` scan step, fuelled (the fuel is
an upper bound on the scan position; each step consumes at least one
character, so `length` fuel is enough).  At each position: `(\w)` takes one
word character, `(\d+)` takes a maximal nonempty digit run (no useful
backtracking exists since `-` is not a digit), `\-` the literal dash, and
`(\w+)` a maximal nonempty word run; on failure the scan advances one
character, on success it resumes after the match (non-overlapping). -/
def findPTMAux : Nat → List Char → List (Char × Nat × String)
  | 0, _ => []
  | _, [] => []
  | fuel + 1, c :: rest =>
    if isWordChar c then
      let ds := rest.takeWhile Char.isDigit
      let rest1 := rest.dropWhile Char.isDigit
      if ds.isEmpty then findPTMAux fuel rest
      else
        match rest1 with
        | '-' :: rest2 =>
          let ws := rest2.takeWhile isWordChar
          let rest3 := rest2.dropWhile isWordChar
          if ws.isEmpty then findPTMAux fuel rest
          else (c, natOfDigits ds, String.mk ws) :: findPTMAux fuel rest3
        | _ => findPTMAux fuel rest
    else findPTMAux fuel rest

/-- Source: `re.findall('(\w)(\d+)\-(\w+)', raw)` as (residue letter, residue number,
modification token) triples. -/
def findPTM (s : List Char) : List (Char × Nat × String) :=
  findPTMAux s.length s

/-- A Python float that is either an actual number or NaN
(`float('nan')`). -/
inductive PyNum where
  | nan
  | int (n : Int)
deriving DecidableEq, Repr

/-- Python `>` against a possibly-NaN float: every comparison with NaN is
false. -/
def pyGtNum (n : Nat) : PyNum → Bool
  | .nan => false
  | .int m => decide ((n : Int) > m)

/-- One `ptms[mod].append(int(resi))` step on the insertion-ordered
`defaultdict(list)`. -/
def addPtm (acc : List (String × List Nat)) (mod : String) (resi : Nat) :
    List (String × List Nat) :=
  match acc with
  | [] => [(mod, [resi])]
  | (k, l) :: rest =>
    if k == mod then (k, l ++ [resi]) :: rest else (k, l) :: addPtm rest mod resi

/-- Accumulate the filtered triples into the modification-kind dictionary. -/
def groupPtms (ts : List (Char × Nat × String)) : List (String × List Nat) :=
  ts.foldl (fun acc t => addPtm acc t.2.2 t.2.1) []

/-- Source: `AF2NotebookAnalyser.parse_phosphosite` (multimodel.py:371-389): replace a
`maximum` below 1 by NaN, assert the text contains `-p`, extract the
`(\w)(\d+)\-(\w+)` triples, drop residues outside `[minimum, maximum]`
(comparisons against NaN are false) and group by modification token. -/
def parse_phosphosite (raw : String) (minimum : Int) (maximum : Int) :
    Except PyErr (List (String × List Nat)) :=
  let maxA : PyNum := if maximum < 1 then PyNum.nan else PyNum.int maximum
  if ! subIn [ '-', 'p'] raw.data then
    .error (.assertionError ("Is this what you wanted in your clipboard: " ++ raw))
  else
    .ok (groupPtms ((findPTM raw.data).filter
      (fun t => ! (decide ((t.2.1 : Int) < minimum) || pyGtNum t.2.1 maxA))))

/-! ## Association lists (CPython dict semantics: insertion order kept) -/

/-- Dict lookup `d[k]` as an option. -/
def lookupA {α β : Type} [DecidableEq α] (k : α) : List (α × β) → Option β
  | [] => none
  | (k0, v) :: rest => if k0 = k then some v else lookupA k rest

/-- Dict store `d[k] = v`: update in place keeps the key position, a new key
is appended (CPython insertion order). -/
def setA {α β : Type} [DecidableEq α] (k : α) (v : β) : List (α × β) → List (α × β)
  | [] => [(k, v)]
  | (k0, v0) :: rest => if k0 = k then (k0, v) :: rest else (k0, v0) :: setA k v rest

/-! ## Catalog (pandas DataFrame) -/

/-- Cell values appearing in the catalog. -/
inductive PyVal where
  | int (n : Int)
  | rat (q : Rat)
  | nan
  | str (s : String)
  | bool (b : Bool)
  | resVec (l : List Nat)
deriving DecidableEq, Repr

/-- The `scores` DataFrame: the `rank` column plus the other named columns in
order. -/
structure DataFrame where
  ranks : List Nat
  cols : List (String × List PyVal)
deriving DecidableEq, Repr

/-- Column read `df[name]` for a non-`rank` column. -/
def getCol (df : DataFrame) (name : String) : Option (List PyVal) :=
  lookupA name df.cols

/-- Python `name in df` (column membership). -/
def hasCol (df : DataFrame) (name : String) : Bool :=
  name == "rank" || (lookupA name df.cols).isSome

/-- Column write `df[name] = values`. -/
def setCol (df : DataFrame) (name : String) (v : List PyVal) : DataFrame :=
  { df with cols := setA name v df.cols }

/-! ## Model Catalog Builder (`make_AF2_dataframe`, multimodel.py:72-106)

A directory entry that matches both filename patterns is modelled by its
captured groups (`(?P<name>.*)_(?P<seed>\d+)_(?P<state>\w+)_rank_(?P<rank>\d+)_model_(?P<model>\d+)\.pdb`);
non-matching filenames are skipped by the source loop and carry no data, so
the directory is modelled as the list of matching entries in enumeration
order. -/

structure AFFile where
  base : String
  seed : Nat
  state : String
  rank : Nat
  model : Nat
deriving DecidableEq, Repr

/-- The filename the captures were parsed from. -/
def AFFile.filename (f : AFFile) : String :=
  f.base ++ "_" ++ toString f.seed ++ "_" ++ f.state ++ "_rank_" ++
    toString f.rank ++ "_model_" ++ toString f.model ++ ".pdb"

/-- Source: `os.path.join` for the relative paths used here. -/
def pathJoin (a b : String) : String := a ++ "/" ++ b

/-- Source: `state = 'unrelaxed' not in rex.group('state')` (multimodel.py:91). -/
def relaxedOf (f : AFFile) : Bool :=
  ! subIn "unrelaxed".data f.state.data

/-- One row dict of `ranked_filenames` (multimodel.py:97-103). -/
structure CatRow where
  name : String
  path : String
  rank : Nat
  model : Nat
  seed : Nat
  relaxed : Bool
deriving DecidableEq, Repr

def mkRow (folder : String) (f : AFFile) : CatRow :=
  { name := f.filename, path := pathJoin folder f.filename, rank := f.rank,
    model := f.model, seed := f.seed, relaxed := relaxedOf f }

/-- The grouping loop of `make_AF2_dataframe`: for each file, skip it when the
rank is already recorded with a relaxed candidate
(`if rank in ranked_filenames and ranked_filenames[rank]['relaxed']: continue`),
otherwise store its row under the rank. -/
def rankedLoop (folder : String) : List (Nat × CatRow) → List AFFile → List (Nat × CatRow)
  | acc, [] => acc
  | acc, f :: rest =>
    if (lookupA f.rank acc).elim false CatRow.relaxed then rankedLoop folder acc rest
    else rankedLoop folder (setA f.rank (mkRow folder f) acc) rest

def rankedFilenames (folder : String) (files : List AFFile) : List (Nat × CatRow) :=
  rankedLoop folder [] files

/-- Source: `pd.DataFrame(list(ranked_filenames.values()))`. -/
def rowsToDataFrame (rows : List CatRow) : DataFrame :=
  { ranks := rows.map CatRow.rank,
    cols := [("name", rows.map (fun r => PyVal.str r.name)),
             ("path", rows.map (fun r => PyVal.str r.path)),
             ("model", rows.map (fun r => PyVal.int r.model)),
             ("seed", rows.map (fun r => PyVal.int r.seed)),
             ("relaxed", rows.map (fun r => PyVal.bool r.relaxed))] }

def make_AF2_dataframe (folder : String) (files : List AFFile) : DataFrame :=
  rowsToDataFrame ((rankedFilenames folder files).map Prod.snd)

/-- The effect of the grouping loop on a single rank key: fold the candidates
for that rank, skipping a candidate when the current entry is relaxed and
overwriting otherwise (proved equal to the loop restricted to one key in
`lookupA_rankedLoop`). -/
def dedupAtKey (folder : String) : Option CatRow → List AFFile → Option CatRow
  | cur, [] => cur
  | cur, f :: rest =>
    if cur.elim false CatRow.relaxed then dedupAtKey folder cur rest
    else dedupAtKey folder (some (mkRow folder f)) rest

/-! ## Metadata Enricher (`_add_settings`, multimodel.py:108-122)

The settings file content is modelled by its existence flag and the list of
`(rank, pLDDT, pTMscore)` triples the `re.findall` line extracts from the
text.  The translation returns the updated catalog, the warnings emitted, and
the exception raised, if any, in sequence order: when the file is missing the
code warns and writes the sentinel columns, and then still executes
`with open(settings_filename, 'r')`, which raises `FileNotFoundError` because
the branch has no early return. -/

def settingsWarn (fname : String) : String := fname ++ " missing!"

/-- Source: `scores['rank'].map(table)`: per-rank lookup, NaN when the rank is
absent. -/
def mapRanks (tbl : List (Nat × Rat)) (ranks : List Nat) : List PyVal :=
  ranks.map (fun r => (lookupA r tbl).elim PyVal.nan PyVal.rat)

def _add_settings (folder : String) (settingsExists : Bool)
    (settingsTriples : List (Nat × Rat × Rat)) (scores : DataFrame) :
    DataFrame × List String × Option PyErr :=
  let fname := pathJoin folder "settings.txt"
  let scores1 :=
    if ! settingsExists then
      setCol (setCol scores "pLDDT" (scores.ranks.map (fun _ => PyVal.int 100)))
        "pTMscore" (scores.ranks.map (fun _ => PyVal.int 100))
    else scores
  let warns := if ! settingsExists then [settingsWarn fname] else []
  if ! settingsExists then (scores1, warns, some (.fileNotFound fname))
  else
    let pL := settingsTriples.map (fun t => (t.1, t.2.1))
    let pT := settingsTriples.map (fun t => (t.1, t.2.2))
    (setCol (setCol scores1 "pLDDT" (mapRanks pL scores1.ranks)) "pTMscore"
       (mapRanks pT scores1.ranks), warns, none)

/-! ## Poses, error matrices and the registry

The structural objects and the external PyRosetta collaborators acting on
them are black boxes per the spec.  A `Pose` carries opaque per-structure
data (`nres`, `nchains`, the per-residue pLDDT b-factors `bf`, the selector
outputs `inters`, the `InterfaceAnalyzerMover` outputs `ifaceStats`) plus a
record of the observable effects applied to it: the `FastRelax` passes
(`passes`, each with its movemap flags, constraint weight and cycle count)
and the constraints added (`csts`). -/

/-- A PAE matrix (`np.array(json.load(fh)['pae'])`). -/
abbrev ErrMat := List (List Rat)

/-- Configuration of one external `FastRelax.apply` pass: movemap flags,
`atom_pair_constraint` weight of the score function, and cycles. -/
structure RelaxCfg where
  bb : Bool
  chi : Bool
  jump : Bool
  cstWeight : Nat
  cycles : Nat
deriving DecidableEq, Repr

/-- A constraint-derivation call recorded on a pose: `add_pae_constraints`
(whole structure) or `add_interchain_pae_constraints` with its cutoff. -/
inductive Cst where
  | pae (err : ErrMat)
  | interchain (err : ErrMat) (cutoff : Nat)
deriving DecidableEq, Repr

structure Pose where
  nres : Nat := 0
  nchains : Nat := 1
  bf : List Rat := []
  inters : List (List Nat) := []
  ifaceStats : List Rat := []
  passes : List RelaxCfg := []
  csts : List Cst := []
deriving DecidableEq, Repr

def defaultPose : Pose := {}

/-- Source: `pose.clone()`: a value copy. -/
def Pose.clone (p : Pose) : Pose := p

/-- Source: `FastRelax(scorefxn, cycles).apply(pose)` (external, in place): recorded
as one more pass on the pose. -/
def applyRelax (cfg : RelaxCfg) (p : Pose) : Pose :=
  { p with passes := p.passes ++ [cfg] }

/-- Source: `add_pae_constraints(pose, error, **kwargs)` (external, in place). -/
def addPaeConstraints (p : Pose) (e : ErrMat) : Pose :=
  { p with csts := p.csts ++ [Cst.pae e] }

/-- Source: `add_interchain_pae_constraints(pose, error, cutoff=...)` (external,
in place). -/
def addInterchainPaeConstraints (p : Pose) (e : ErrMat) (cutoff : Nat) : Pose :=
  { p with csts := p.csts ++ [Cst.interchain e cutoff] }

/-- Source: `scorefxn(pose)` (external): any definite function of the pose. -/
def scorePose (p : Pose) : Rat := (p.passes.length : Rat)

/-- Movemap of `sidechain_relax`: backbone off, sidechains on, constraint
weight forced to 0 (multimodel.py:181-187). -/
def sidechainCfg (cycles : Nat) : RelaxCfg :=
  { bb := false, chi := true, jump := false, cstWeight := 0, cycles := cycles }

/-- Movemap of `relax`: backbone, sidechains and jumps on, constraint weight
1 (multimodel.py:204-215). -/
def fullCfg (cycles : Nat) : RelaxCfg :=
  { bb := true, chi := true, jump := true, cstWeight := 1, cycles := cycles }

abbrev PoseMap := List (Nat × Pose)
abbrev Errors := List (Nat × ErrMat)

/-- The mutable state of an `AF2NotebookAnalyser`.  `original_poses` is kept
as an `Option` because `relax` compares it against `None`
(multimodel.py:202); the constructor always stores a dict (`some`). -/
structure AnalyserState where
  folder : String
  scores : DataFrame
  relaxedPoses : PoseMap
  originalPoses : Option PoseMap
  phosphoPoses : PoseMap
  errors : Errors
deriving DecidableEq, Repr

/-- Message of `assert len(self.poses[groupname]), f'The group {groupname} is
not loaded'`. -/
def assertGroupMsg (groupname : String) : String :=
  "The group " ++ groupname ++ " is not loaded"

/-- Source: `self.poses[groupname]` — the `poses` property keyed by group name.  A
`None` value for `original` surfaces as the `TypeError` that `len(None)`
would raise at the use site. -/
def getGroup (st : AnalyserState) (groupname : String) : Except PyErr PoseMap :=
  if groupname = "relaxed" then .ok st.relaxedPoses
  else if groupname = "original" then
    match st.originalPoses with
    | some m => .ok m
    | none => .error (.typeError "object of type NoneType has no len()")
  else if groupname = "phospho" then .ok st.phosphoPoses
  else .error (.keyErrorStr groupname)

/-- Write the (in-place mutated) group dict back into the state. -/
def setGroup (st : AnalyserState) (groupname : String) (m : PoseMap) : AnalyserState :=
  if groupname = "relaxed" then { st with relaxedPoses := m }
  else if groupname = "original" then { st with originalPoses := some m }
  else if groupname = "phospho" then { st with phosphoPoses := m }
  else st

/-! ## `_generator_poses` (multimodel.py:153-158)

The generator expression
`((index, self.poses[groupname][index], self.errors[index]) for index in self.errors)`
is a lazy sequence over the error-table ranks; a rank missing from the group
raises `KeyError` when that element is demanded.  `genRun` returns the
triples produced before the first missing rank together with that rank, if
any; the assertion on the group size runs eagerly when `_generator_poses` is
called, before any triple is produced. -/

def genRun (group : PoseMap) : Errors → List (Nat × Pose × ErrMat) × Option Nat
  | [] => ([], none)
  | (r, e) :: rest =>
    match lookupA r group with
    | none => ([], some r)
    | some p =>
      let t := genRun group rest
      ((r, p, e) :: t.1, t.2)

def _generator_poses (group : PoseMap) (groupname : String) (errors : Errors) :
    Except PyErr (List (Nat × Pose × ErrMat) × Option Nat) :=
  if group.length = 0 then .error (.assertionError (assertGroupMsg groupname))
  else .ok (genRun group errors)

/-! ## `constrain` (multimodel.py:160-171) -/

/-- Loop body of `constrain`: for each error-table rank look the pose up in
the chosen group and apply the two constraint-derivation calls, the second
with cutoff 15. -/
def constrainLoop : Errors → PoseMap → Except PyErr PoseMap
  | [], g => .ok g
  | (r, e) :: rest, g =>
    match lookupA r g with
    | none => .error (.keyError r)
    | some p =>
      constrainLoop rest
        (setA r (addInterchainPaeConstraints (addPaeConstraints p e) e 15) g)

def constrain (st : AnalyserState) (groupname : String) : Except PyErr AnalyserState :=
  match st.originalPoses with
  | none => .error (.typeError "object of type NoneType has no len()")
  | some orig =>
    if orig.length = 0 then .error (.valueError "Load poses first.")
    else
      match getGroup st groupname with
      | .error e => .error e
      | .ok grp =>
        if grp.length = 0 then .error (.assertionError (assertGroupMsg groupname))
        else
          match constrainLoop st.errors grp with
          | .error e => .error e
          | .ok grp2 => .ok (setGroup st groupname grp2)

/-! ## `sidechain_relax` (multimodel.py:173-192) and `relax` (194-219) -/

/-- Shared loop of `sidechain_relax` and `relax` over the `original`
generator: clone the original pose into `relaxed` when the rank is absent
(`if index not in self.relaxed_poses`), then apply the relax pass to the
`relaxed` entry in place. -/
def relaxGroupLoop (cfg : RelaxCfg) (orig : PoseMap) :
    Errors → PoseMap → Except PyErr PoseMap
  | [], relaxed => .ok relaxed
  | (r, _e) :: rest, relaxed =>
    match lookupA r orig with
    | none => .error (.keyError r)
    | some pose =>
      let relaxed1 :=
        if (lookupA r relaxed).isSome then relaxed else setA r pose.clone relaxed
      match lookupA r relaxed1 with
      | none => .error (.keyError r)
      | some q => relaxGroupLoop cfg orig rest (setA r (applyRelax cfg q) relaxed1)

def sidechain_relax (st : AnalyserState) (cycles : Nat) : Except PyErr AnalyserState :=
  match st.originalPoses with
  | none => .error (.typeError "object of type NoneType has no len()")
  | some orig =>
    if orig.length = 0 then .error (.assertionError (assertGroupMsg "original"))
    else
      match relaxGroupLoop (sidechainCfg cycles) orig st.errors st.relaxedPoses with
      | .error e => .error e
      | .ok relaxed2 => .ok { st with relaxedPoses := relaxed2 }

/-- Source: `self.scores['rank'].apply(lambda rank: scorefxn(self.relaxed_poses[rank]))`:
the dG column in catalog row order, by rank lookup. -/
def dGColumn (relaxed : PoseMap) : List Nat → Except PyErr (List Rat)
  | [] => .ok []
  | r :: rest =>
    match lookupA r relaxed with
    | none => .error (.keyError r)
    | some p =>
      match dGColumn relaxed rest with
      | .error e => .error e
      | .ok vs => .ok (scorePose p :: vs)

def relax (st : AnalyserState) (cycles : Nat) : Except PyErr AnalyserState :=
  match st.originalPoses with
  | none => .error (.valueError "Load poses first.")
  | some orig =>
    if orig.length = 0 then .error (.assertionError (assertGroupMsg "original"))
    else
      match relaxGroupLoop (fullCfg cycles) orig st.errors st.relaxedPoses with
      | .error e => .error e
      | .ok relaxed2 =>
        match dGColumn relaxed2 st.scores.ranks with
        | .error e => .error e
        | .ok dGs =>
          .ok { st with relaxedPoses := relaxed2,
                        scores := setCol st.scores "dG" (dGs.map PyVal.rat) }

/-! ## Interface analysis (multimodel.py:229-367) -/

/-- Source: `get_interactions` (multimodel.py:316-329): the four-stage selector
composition is external; its output per chain id is carried on the pose. -/
def get_interactions (p : Pose) (chain_id : Nat) : List Nat :=
  p.inters.getD (chain_id - 1) []

/-- Source: `pose.pdb_info().bfactor(r, CA)` (external data on the pose). -/
def bfactorAt (p : Pose) (r : Nat) : Rat := p.bf.getD (r - 1) 0

def insertSorted (x : Rat) : List Rat → List Rat
  | [] => [x]
  | y :: rest => if x ≤ y then x :: y :: rest else y :: insertSorted x rest

def sortQ : List Rat → List Rat
  | [] => []
  | x :: rest => insertSorted x (sortQ rest)

/-- Source: `np.median`: middle of the sorted list (mean of the two middles for even
length); NaN (`none`) on an empty list. -/
def npMedian (l : List Rat) : Option Rat :=
  let s := sortQ l
  if s.isEmpty then none
  else if s.length % 2 = 1 then some (s.getD (s.length / 2) 0)
  else some ((s.getD (s.length / 2 - 1) 0 + s.getD (s.length / 2) 0) / 2)

/-- Source: `scores['rank'].apply(lambda rank: get_interactions(relaxed_poses[rank], chain))`. -/
def interResidCol (relaxed : PoseMap) (chain_id : Nat) :
    List Nat → Except PyErr (List PyVal)
  | [] => .ok []
  | rank :: rest =>
    match lookupA rank relaxed with
    | none => .error (.keyError rank)
    | some p =>
      match interResidCol relaxed chain_id rest with
      | .error e => .error e
      | .ok vs => .ok (PyVal.resVec (get_interactions p chain_id) :: vs)

/-- Source: `.apply(len)` on a residue-vector column. -/
def lenVal : PyVal → PyVal
  | .resVec l => .int l.length
  | _ => .int 0

/-- Source: `find_interface_residues` (multimodel.py:331-344): early return when the
count column already exists, assertions on a populated `relaxed` group and a
multi-chain structure at rank 1, then the four interface-residue columns. -/
def find_interface_residues (st : AnalyserState) : Except PyErr AnalyserState :=
  if hasCol st.scores "N_interchain_residues_1" then .ok st
  else if st.relaxedPoses.length = 0 then .error (.assertionError "No poses loaded yet!")
  else
    match lookupA 1 st.relaxedPoses with
    | none => .error (.keyError 1)
    | some p1 =>
      if p1.nchains ≤ 1 then .error (.assertionError "Single chain!")
      else
        match interResidCol st.relaxedPoses 1 st.scores.ranks with
        | .error e => .error e
        | .ok c1 =>
          match interResidCol st.relaxedPoses 2 st.scores.ranks with
          | .error e => .error e
          | .ok c2 =>
            let sc :=
              setCol (setCol (setCol (setCol st.scores "interchain_residues_1" c1)
                "interchain_residues_2" c2)
                "N_interchain_residues_1" (c1.map lenVal))
                "N_interchain_residues_2" (c2.map lenVal)
            .ok { st with scores := sc }

def zip3 : List Nat → List PyVal → List PyVal → List (Nat × PyVal × PyVal)
  | r :: rs, a :: ta, b :: tb => (r, a, b) :: zip3 rs ta tb
  | _, _, _ => []

/-- Per-row median of the pLDDT b-factors over the union of the two
interface residue sets (`_get_median_interface_bfactor`, rank looked up in
`relaxed_poses`). -/
def mediansLoop (relaxed : PoseMap) :
    List (Nat × PyVal × PyVal) → Except PyErr (List (Nat × Option Rat))
  | [] => .ok []
  | (rank, v1, v2) :: rest =>
    match v1, v2 with
    | .resVec l1, .resVec l2 =>
      match lookupA rank relaxed with
      | none => .error (.keyError rank)
      | some p =>
        match mediansLoop relaxed rest with
        | .error e => .error e
        | .ok ms => .ok ((rank, npMedian ((l1 ++ l2).map (bfactorAt p))) :: ms)
    | _, _ => .error (.typeError "interchain residue cells")

/-- Source: `get_median_interface_bfactors` (multimodel.py:354-367). -/
def get_median_interface_bfactors (st : AnalyserState) :
    Except PyErr (AnalyserState × List (Nat × Option Rat)) :=
  match find_interface_residues st with
  | .error e => .error e
  | .ok st1 =>
    match getCol st1.scores "interchain_residues_1",
          getCol st1.scores "interchain_residues_2" with
    | some c1, some c2 =>
      match mediansLoop st1.relaxedPoses (zip3 st1.scores.ranks c1 c2) with
      | .error e => .error e
      | .ok ms => .ok (st1, ms)
    | _, _ => .error (.attributeError "interchain_residues")

/-- The six `InterfaceAnalyzerMover` getters (external outputs carried on the
pose). -/
def iaStat (p : Pose) (i : Nat) : Rat := p.ifaceStats.getD i 0

/-- The per-rank loop of `calculate_interface`: apply the analyzer to the
relaxed pose of each catalog rank (`KeyError` when absent) and collect the
median plus the six analyzer outputs. -/
def interfaceLoop (relaxed : PoseMap) (medians : List (Nat × Option Rat)) :
    List Nat → Except PyErr (List (Option Rat × Pose))
  | [] => .ok []
  | rank :: rest =>
    match lookupA rank relaxed with
    | none => .error (.keyError rank)
    | some p =>
      match lookupA rank medians with
      | none => .error (.keyError rank)
      | some m =>
        match interfaceLoop relaxed medians rest with
        | .error e => .error e
        | .ok rows => .ok ((m, p) :: rows)

def optRatVal : Option Rat → PyVal
  | none => .nan
  | some q => .rat q

/-- Source: `calculate_interface` (multimodel.py:229-259): the medians (and with them
`find_interface_residues`) run first; only then does the missing-`dG` early
return fire; otherwise the seven analyzer columns are appended. -/
def calculate_interface (st : AnalyserState) (_iface : String) :
    Except PyErr AnalyserState :=
  match get_median_interface_bfactors st with
  | .error e => .error e
  | .ok (st1, medians) =>
    if ! hasCol st1.scores "dG" then .ok st1
    else
      match interfaceLoop st1.relaxedPoses medians st1.scores.ranks with
      | .error e => .error e
      | .ok rows =>
        let sc :=
          setCol (setCol (setCol (setCol (setCol (setCol (setCol st1.scores
            "median_interface_pLDDT" (rows.map (fun x => optRatVal x.1)))
            "complex_energy" (rows.map (fun x => PyVal.rat (iaStat x.2 0))))
            "separated_interface_energy" (rows.map (fun x => PyVal.rat (iaStat x.2 1))))
            "complexed_sasa" (rows.map (fun x => PyVal.rat (iaStat x.2 2))))
            "crossterm_interface_energy" (rows.map (fun x => PyVal.rat (iaStat x.2 3))))
            "interface_dG" (rows.map (fun x => PyVal.rat (iaStat x.2 4))))
            "interface_delta_sasa" (rows.map (fun x => PyVal.rat (iaStat x.2 5)))
        .ok { st1 with scores := sc }

/-! ## `dump` / `dump_pdbs` (multimodel.py:263-297) and the `load` ranker

The filesystem is the list of paths written so far.  `dump` writes
`scores.csv`, runs `dump_pdbs` for the default `relaxed` group, and then
executes `open(os.path.join(folder, 'errors.p', 'w'))`: the mode string is a
path component, so the call opens the path `folder/errors.p/w` for reading —
`FileNotFoundError` when absent, and `pickle.dump` into a read-only text
handle when present.  Directory creation by `_parse_folder_argument` is a
side effect outside this model. -/

abbrev FS := List String

/-- Source: `f'{prefix}rank_{index}_pyrosetta_{groupname}.pdb'` (multimodel.py:283). -/
def dumpPdbName ( pfx : String) (rank : Nat) (groupname : String) : String :=
  pfx ++ "rank_" ++ toString rank ++ "_pyrosetta_" ++ groupname ++ ".pdb"

def _parse_folder_argument (st : AnalyserState) (folder : Option String) : String :=
  match folder with
  | none => st.folder
  | some fo => if fo = "" then st.folder else fo

def dumpPdbsLoop (st : AnalyserState) (group : PoseMap) (groupname : String)
    (folder : Option String) ( pfx : String) : Errors → FS → Except PyErr FS
  | [], fs => .ok fs
  | (r, _e) :: rest, fs =>
    let fo := _parse_folder_argument st folder
    match lookupA r group with
    | none => .error (.keyError r)
    | some _p =>
      dumpPdbsLoop st group groupname folder pfx rest
        (pathJoin fo (dumpPdbName pfx r groupname) :: fs)

def dump_pdbs (st : AnalyserState) (groupname : String) (folder : Option String)
    ( pfx : String) (fs : FS) : Except PyErr FS :=
  match getGroup st groupname with
  | .error e => .error e
  | .ok grp =>
    if grp.length = 0 then .error (.assertionError (assertGroupMsg groupname))
    else dumpPdbsLoop st grp groupname folder pfx st.errors fs

def dump (st : AnalyserState) (folder : Option String) (fs : FS) : Except PyErr FS :=
  match dump_pdbs st "relaxed" (some (_parse_folder_argument st folder)) ""
      (pathJoin (_parse_folder_argument st folder) "scores.csv" :: fs) with
  | .error e => .error e
  | .ok fs2 =>
    if fs2.contains (pathJoin (pathJoin (_parse_folder_argument st folder) "errors.p") "w") then
      .error (.unsupportedOperation "not writable")
    else .error (.fileNotFound (pathJoin (pathJoin (_parse_folder_argument st folder) "errors.p") "w"))

/-- Source: `re.search(r'rank(\d+)\.pdb', filename)` from the `load` classmethod
(multimodel.py:308): leftmost position where `rank` is followed by a nonempty
digit run followed immediately by `.pdb`. -/
def rankerSearchAux : Nat → List Char → Option Nat
  | 0, _ => none
  | _, [] => none
  | fuel + 1, c :: rest =>
    if "rank".data.isPrefixOf (c :: rest) then
      let afterR := (c :: rest).drop 4
      let ds := afterR.takeWhile Char.isDigit
      let rest1 := afterR.dropWhile Char.isDigit
      if ds.isEmpty then rankerSearchAux fuel rest
      else if ".pdb".data.isPrefixOf rest1 then some (natOfDigits ds)
      else rankerSearchAux fuel rest
    else rankerSearchAux fuel rest

def rankerSearch (s : String) : Option Nat := rankerSearchAux s.data.length s.data

/-! ## Construction (`__init__`, multimodel.py:55-65) -/

/-- Source: `filename.replace(needle, repl)`: replace every non-overlapping
occurrence, left to right. -/
def replaceSubAux (needle repl : List Char) : Nat → List Char → List Char
  | 0, s => s
  | _, [] => []
  | fuel + 1, c :: rest =>
    if needle.isPrefixOf (c :: rest) then
      repl ++ replaceSubAux needle repl fuel ((c :: rest).drop needle.length)
    else c :: replaceSubAux needle repl fuel rest

def replaceSub (s needle repl : String) : String :=
  String.mk (replaceSubAux needle.data repl.data s.data.length s.data)

/-- A result directory as the constructor observes it: the matching
structure filenames, the settings file (existence flag plus the triples its
`re.findall` extracts), and the external loaders keyed by path
(`pyrosetta.pose_from_file`, and the `pae` array of the sibling
`_scores.json`). -/
structure Disk where
  folder : String
  files : List AFFile
  settingsExists : Bool
  settingsTriples : List (Nat × Rat × Rat)
  poseOf : String → Option Pose
  paeOf : String → Option ErrMat

/-- Source: `get_poses` (multimodel.py:124-136): one pose per catalog row, keyed by
rank. -/
def get_posesAux (poseOf : String → Option Pose) :
    List CatRow → PoseMap → Except PyErr PoseMap
  | [], m => .ok m
  | row :: rest, m =>
    match poseOf row.path with
    | none => .error (.loadError row.path)
    | some p => get_posesAux poseOf rest (setA row.rank p m)

def get_poses (poseOf : String → Option Pose) (rows : List CatRow) :
    Except PyErr PoseMap :=
  get_posesAux poseOf rows []

/-- Source: `get_errors` (multimodel.py:138-151): sibling-path substitution then the
`pae` array, keyed by rank. -/
def get_errorsAux (paeOf : String → Option ErrMat) :
    List CatRow → Errors → Except PyErr Errors
  | [], m => .ok m
  | row :: rest, m =>
    match paeOf (replaceSub row.path ".pdb" "_scores.json") with
    | none => .error (.fileNotFound (replaceSub row.path ".pdb" "_scores.json"))
    | some e => get_errorsAux paeOf rest (setA row.rank e m)

def get_errors (paeOf : String → Option ErrMat) (rows : List CatRow) :
    Except PyErr Errors :=
  get_errorsAux paeOf rows []

/-- Source: `__init__`: build the catalog, enrich it from the settings file (whose
missing-file path raises, claim C1), store empty group dicts — the
`original` group is always a dict, never `None` — then load the original
poses on request and the error matrices. -/
def initAnalyser (d : Disk) (load_poses : Bool) : Except PyErr AnalyserState :=
  let rows := (rankedFilenames d.folder d.files).map Prod.snd
  let scores0 := rowsToDataFrame rows
  let enriched := _add_settings d.folder d.settingsExists d.settingsTriples scores0
  match enriched.2.2 with
  | some e => .error e
  | none =>
    match (if load_poses then get_poses d.poseOf rows else .ok []) with
    | .error e => .error e
    | .ok orig =>
      match get_errors d.paeOf rows with
      | .error e => .error e
      | .ok errs =>
        .ok { folder := d.folder, scores := enriched.1, relaxedPoses := [],
              originalPoses := some orig, phosphoPoses := [], errors := errs }

/-- Source: `Except.isOk` predicate used in hypotheses. -/
def exceptIsOk {α : Type} : Except PyErr α → Bool
  | .ok _ => true
  | .error _ => false

/-! Concrete inputs used by witnesses and counterexamples. -/

def c5RelaxedFile : AFFile :=
  { base := "kcc2dimer", seed := 42460, state := "relaxed", rank := 2, model := 5 }

def c5UnrelaxedFile : AFFile :=
  { base := "kcc2dimer", seed := 42460, state := "unrelaxed", rank := 2, model := 3 }

def poseW : Pose :=
  { nres := 3, nchains := 2, bf := [95, 90, 80], inters := [[1], [2]],
    ifaceStats := [1, 2, 3, 4, 5, 6], passes := [], csts := [] }

def errW : ErrMat := [[0, 1], [1, 0]]

def diskW : Disk :=
  { folder := "results", files := [c5RelaxedFile], settingsExists := true,
    settingsTriples := [(2, 90, 4 / 5)],
    poseOf := fun _ => some poseW, paeOf := fun _ => some errW }

def emptyState : AnalyserState :=
  { folder := "", scores := { ranks := [], cols := [] }, relaxedPoses := [],
    originalPoses := none, phosphoPoses := [], errors := [] }

/-- The analyser `initAnalyser diskW true` constructs. -/
def stW : AnalyserState :=
  match initAnalyser diskW true with
  | .ok st => st
  | .error _ => emptyState

/-- A `relaxed` entry that has already been refined once (so it differs from
a fresh clone of the original). -/
def poseQ : Pose := { poseW with passes := [sidechainCfg 1] }

/-- State for the C6 / C7 witnesses: rank 1 in `original`, an already-refined
rank 1 in `relaxed`, one error matrix. -/
def stC6 : AnalyserState :=
  { folder := "results", scores := { ranks := [1], cols := [] },
    relaxedPoses := [(1, poseQ)], originalPoses := some [(1, poseW)],
    phosphoPoses := [], errors := [(1, errW)] }

/-- C7 counterexample state: `relaxed` holds rank 5 only, while the error
table is empty, so `constrain` makes no constraint call at all for rank 5. -/
def stC7 : AnalyserState :=
  { folder := "results", scores := { ranks := [1], cols := [] },
    relaxedPoses := [(5, defaultPose)], originalPoses := some [(1, poseW)],
    phosphoPoses := [], errors := [] }

/-- State with an empty `original` group. -/
def stEmptyOrig : AnalyserState :=
  { stC6 with originalPoses := some [] }

/-- C3 counterexample state: no `dG` column, no interface columns, empty
`relaxed` group. -/
def stC3 : AnalyserState :=
  { folder := "results", scores := { ranks := [1], cols := [] },
    relaxedPoses := [], originalPoses := some [], phosphoPoses := [],
    errors := [] }

/-- C3 witness state: interface-residue columns already computed, no `dG`
column, relaxed pose present for the single catalog rank. -/
def stC3W : AnalyserState :=
  { folder := "results",
    scores := { ranks := [1],
                cols := [("interchain_residues_1", [PyVal.resVec [1]]),
                         ("interchain_residues_2", [PyVal.resVec [2]]),
                         ("N_interchain_residues_1", [PyVal.int 1]),
                         ("N_interchain_residues_2", [PyVal.int 1])] },
    relaxedPoses := [(1, poseW)], originalPoses := some [], phosphoPoses := [],
    errors := [] }

end AF2

namespace AF2

/-- Claim C8: for annotation text with residues inside and outside the
`[minimum, maximum]` window, `parse_phosphosite` keeps exactly the in-window
residues grouped by modification token: on input `"S45-p T99-p K12-m1"` with
window `[1, 50]` it returns `{p: [45], m1: [12]}`, excluding residue 99. -/
theorem c8_parse_phosphosite_window :
    parse_phosphosite "S45-p T99-p K12-m1" 1 50 =
      .ok [("p", [45]), ("m1", [12])] := by
  rfl

/-- Claim C10: any `maximum` below 1 (including the default `-1`) disables the
upper bound of `parse_phosphosite` entirely: `maximum` is replaced by NaN,
whose comparisons are always false, so the filter keeps every extracted
residue number that is at least `minimum`, with no upper-limit test. -/
theorem c10_nan_disables_upper (raw : String) (minimum maximum : Int)
    (hmax : maximum < 1) :
    parse_phosphosite raw minimum maximum =
      (if subIn [ '-', 'p'] raw.data then
        .ok (groupPtms ((findPTM raw.data).filter
          (fun t => ! decide ((t.2.1 : Int) < minimum))))
      else
        .error (.assertionError
          ("Is this what you wanted in your clipboard: " ++ raw))) := by
  unfold parse_phosphosite
  simp only [if_pos hmax, pyGtNum, Bool.or_false]
  cases h : subIn [ '-', 'p'] raw.data with
  | false => simp [h]
  | true => simp [h]

/-- Witness for C10 at a concrete input: with `maximum = -1` the residue 99 is
retained (no upper filtering) while the lower bound 2 still applies. -/
theorem c10_nan_disables_upper_witness :
    parse_phosphosite "S45-p T99-p K12-m1" 2 (-1) =
      .ok [("p", [45, 99]), ("m1", [12])] := by
  rw [c10_nan_disables_upper "S45-p T99-p K12-m1" 2 (-1) (by decide)]
  rfl

/-! ## Association-list lemmas -/

theorem lookupA_setA_self {α β : Type} [DecidableEq α] (k : α) (v : β)
    (l : List (α × β)) : lookupA k (setA k v l) = some v := by
  induction l with
  | nil => simp [setA, lookupA]
  | cons hd tl ih =>
    obtain ⟨k0, v0⟩ := hd
    by_cases h : k0 = k
    · simp [setA, h, lookupA]
    · simp [setA, h, lookupA, ih]

theorem lookupA_setA_ne {α β : Type} [DecidableEq α] {k k' : α} (h : k' ≠ k)
    (v : β) (l : List (α × β)) : lookupA k' (setA k v l) = lookupA k' l := by
  induction l with
  | nil => simp [setA, lookupA, Ne.symm h]
  | cons hd tl ih =>
    obtain ⟨k0, v0⟩ := hd
    by_cases h0 : k0 = k
    · subst h0
      simp [setA, lookupA, Ne.symm h]
    · simp [setA, h0, lookupA, ih]

theorem mem_setA {α β : Type} [DecidableEq α] {k' : α} {v' : β} (k : α) (v : β)
    (l : List (α × β)) (hm : (k', v') ∈ setA k v l) :
    (k' = k ∧ v' = v) ∨ (k', v') ∈ l := by
  induction l with
  | nil =>
    simp [setA] at hm
    exact Or.inl hm
  | cons hd tl ih =>
    obtain ⟨k0, v0⟩ := hd
    by_cases h0 : k0 = k
    · subst h0
      simp [setA] at hm
      rcases hm with ⟨h1, h2⟩ | h
      · exact Or.inl ⟨h1, h2⟩
      · exact Or.inr (List.mem_cons_of_mem _ h)
    · simp [setA, h0] at hm
      rcases hm with ⟨h1, h2⟩ | h
      · exact Or.inr (by simp [h1, h2])
      · rcases ih h with h' | h'
        · exact Or.inl h'
        · exact Or.inr (List.mem_cons_of_mem _ h')

theorem lookupA_eq_none_iff {α β : Type} [DecidableEq α] (k : α)
    (l : List (α × β)) : lookupA k l = none ↔ k ∉ l.map Prod.fst := by
  induction l with
  | nil => simp [lookupA]
  | cons hd tl ih =>
    obtain ⟨k0, v0⟩ := hd
    by_cases h0 : k0 = k
    · subst h0
      simp [lookupA]
    · simp [lookupA, h0, ih, Ne.symm h0]

theorem map_fst_setA_of_none {α β : Type} [DecidableEq α] {k : α} (v : β)
    {l : List (α × β)} (h : lookupA k l = none) :
    (setA k v l).map Prod.fst = l.map Prod.fst ++ [k] := by
  induction l with
  | nil => simp [setA]
  | cons hd tl ih =>
    obtain ⟨k0, v0⟩ := hd
    by_cases h0 : k0 = k
    · simp [lookupA, h0] at h
    · simp [lookupA, h0] at h
      simp [setA, h0, ih h]

theorem map_fst_setA_of_some {α β : Type} [DecidableEq α] {k : α} (v : β)
    {l : List (α × β)} (h : (lookupA k l).isSome) :
    (setA k v l).map Prod.fst = l.map Prod.fst := by
  induction l with
  | nil => simp [lookupA] at h
  | cons hd tl ih =>
    obtain ⟨k0, v0⟩ := hd
    by_cases h0 : k0 = k
    · simp [setA, h0]
    · simp [lookupA, h0] at h
      simp [setA, h0, ih h]

/-! ## Catalog builder lemmas (claim C5) -/

theorem lookupA_rankedLoop (folder : String) (r : Nat) (files : List AFFile)
    (acc : List (Nat × CatRow)) :
    lookupA r (rankedLoop folder acc files) =
      dedupAtKey folder (lookupA r acc) (files.filter (fun x => x.rank == r)) := by
  induction files generalizing acc with
  | nil => rfl
  | cons f rest ih =>
    simp only [rankedLoop, List.filter_cons]
    by_cases hr : f.rank = r
    · simp only [hr, beq_self_eq_true, if_pos, dedupAtKey]
      by_cases hc : (lookupA r acc).elim false CatRow.relaxed
      · simp only [hc, if_pos, ih]
      · simp only [hc, if_neg, Bool.false_eq_true, not_false_iff, ih,
          lookupA_setA_self]
    · have hbe : (f.rank == r) = false := by
        exact beq_false_of_ne hr
      simp only [hbe, Bool.false_eq_true, if_false]
      by_cases hc : (lookupA f.rank acc).elim false CatRow.relaxed
      · simp only [hc, if_pos, ih]
      · simp only [hc, if_neg, Bool.false_eq_true, not_false_iff, ih,
          lookupA_setA_ne (fun hh : r = f.rank => hr hh.symm)]

theorem rankedLoop_rank_eq (folder : String) (files : List AFFile)
    (acc : List (Nat × CatRow)) (hacc : ∀ p ∈ acc, (Prod.snd p).rank = p.1) :
    ∀ p ∈ rankedLoop folder acc files, (Prod.snd p).rank = p.1 := by
  induction files generalizing acc with
  | nil => exact hacc
  | cons f rest ih =>
    simp only [rankedLoop]
    by_cases hc : (lookupA f.rank acc).elim false CatRow.relaxed
    · simp only [hc, if_pos]
      exact ih acc hacc
    · simp only [hc, if_neg, Bool.false_eq_true, not_false_iff]
      refine ih _ ?_
      intro p hp
      rcases mem_setA _ _ _ hp with ⟨h1, h2⟩ | h
      · simp [h1, h2, mkRow]
      · exact hacc p h

theorem rankedLoop_nodup (folder : String) (files : List AFFile)
    (acc : List (Nat × CatRow)) (hacc : (acc.map Prod.fst).Nodup) :
    ((rankedLoop folder acc files).map Prod.fst).Nodup := by
  induction files generalizing acc with
  | nil => exact hacc
  | cons f rest ih =>
    simp only [rankedLoop]
    by_cases hc : (lookupA f.rank acc).elim false CatRow.relaxed
    · simp only [hc, if_pos]
      exact ih acc hacc
    · simp only [hc, if_neg, Bool.false_eq_true, not_false_iff]
      refine ih _ ?_
      cases hl : lookupA f.rank acc with
      | some row =>
        rw [map_fst_setA_of_some _ (by simp [hl])]
        exact hacc
      | none =>
        rw [map_fst_setA_of_none _ hl]
        have hnotin : f.rank ∉ acc.map Prod.fst := (lookupA_eq_none_iff _ _).mp hl
        simp [List.nodup_append, hacc, hnotin]

theorem count_map_rank (r : Nat) (rows : List CatRow) :
    (rows.map CatRow.rank).count r =
      (rows.filter (fun row => row.rank == r)).length := by
  induction rows with
  | nil => rfl
  | cons hd tl ih =>
    simp only [List.map_cons, List.count_cons, List.filter_cons]
    by_cases h : hd.rank = r
    · simp [h, ih]
    · simp [beq_false_of_ne h, h, ih]

theorem filter_values_eq_lookup (r : Nat) (l : List (Nat × CatRow))
    (hk : ∀ p ∈ l, (Prod.snd p).rank = p.1) (hnd : (l.map Prod.fst).Nodup) :
    (l.map Prod.snd).filter (fun row => row.rank == r) =
      (lookupA r l).elim [] (fun v => [v]) := by
  induction l with
  | nil => rfl
  | cons hd tl ih =>
    obtain ⟨k0, v0⟩ := hd
    have hv0 : v0.rank = k0 := hk (k0, v0) (by simp)
    simp only [List.map_cons, List.filter_cons, lookupA]
    have hndtl : (tl.map Prod.fst).Nodup := (List.nodup_cons.mp hnd).2
    have hk0 : k0 ∉ tl.map Prod.fst := (List.nodup_cons.mp hnd).1
    have ihtl := ih (fun p hp => hk p (List.mem_cons_of_mem _ hp)) hndtl
    by_cases h0 : k0 = r
    · subst h0
      have hnone : lookupA k0 tl = none := (lookupA_eq_none_iff _ _).mpr hk0
      simp [hv0, ihtl, hnone]
    · have hbe : (v0.rank == r) = false := by
        rw [hv0]
        exact beq_false_of_ne h0
      simp [hbe, h0, ihtl]

/-- Claim C5: for a directory whose two candidate files for rank `r` are one
relaxed and one unrelaxed file, in either enumeration order, the catalog
built by `make_AF2_dataframe` retains exactly the relaxed candidate for that
rank: the `ranked_filenames` entry at `r` is the relaxed row, the row list
holds exactly that one row with rank `r`, and `r` appears exactly once in the
rank column. -/
theorem c5_dedup_keeps_relaxed (folder : String) (files : List AFFile) (r : Nat)
    (f g : AFFile) (hrel : relaxedOf f = true) (hunrel : relaxedOf g = false)
    (horder : files.filter (fun x => x.rank == r) = [f, g] ∨
              files.filter (fun x => x.rank == r) = [g, f]) :
    lookupA r (rankedFilenames folder files) = some (mkRow folder f) ∧
    ((rankedFilenames folder files).map Prod.snd).filter
        (fun row => row.rank == r) = [mkRow folder f] ∧
    (make_AF2_dataframe folder files).ranks.count r = 1 := by
  have hlook : lookupA r (rankedFilenames folder files) = some (mkRow folder f) := by
    rw [rankedFilenames, lookupA_rankedLoop]
    rcases horder with h | h <;>
      simp [h, dedupAtKey, lookupA, mkRow, hrel, hunrel]
  have hfil : ((rankedFilenames folder files).map Prod.snd).filter
      (fun row => row.rank == r) = [mkRow folder f] := by
    rw [rankedFilenames] at hlook ⊢
    rw [filter_values_eq_lookup r _
      (rankedLoop_rank_eq folder files [] (by simp))
      (rankedLoop_nodup folder files [] (by simp)), hlook]
    rfl
  refine ⟨hlook, hfil, ?_⟩
  show (((rankedFilenames folder files).map Prod.snd).map CatRow.rank).count r = 1
  rw [count_map_rank, hfil]
  rfl

/-- Witness for C5 at a concrete directory: the unrelaxed file enumerated
first, the relaxed one second; the relaxed row wins. -/
theorem c5_dedup_keeps_relaxed_witness :
    lookupA 2 (rankedFilenames "results" [c5UnrelaxedFile, c5RelaxedFile]) =
      some (mkRow "results" c5RelaxedFile) ∧
    ((rankedFilenames "results" [c5UnrelaxedFile, c5RelaxedFile]).map Prod.snd).filter
        (fun row => row.rank == 2) = [mkRow "results" c5RelaxedFile] ∧
    (make_AF2_dataframe "results" [c5UnrelaxedFile, c5RelaxedFile]).ranks.count 2 = 1 :=
  c5_dedup_keeps_relaxed "results" [c5UnrelaxedFile, c5RelaxedFile] 2
    c5RelaxedFile c5UnrelaxedFile (by decide) (by decide) (Or.inr (by decide))

/-! ## Claim C4: the `_generator_poses` iteration contract -/

theorem genRun_all_present (group : PoseMap) (errors : Errors)
    (h : ∀ re ∈ errors, (lookupA re.1 group).isSome) :
    genRun group errors =
      (errors.map (fun re => (re.1, (lookupA re.1 group).getD defaultPose, re.2)),
        none) := by
  induction errors with
  | nil => rfl
  | cons re rest ih =>
    obtain ⟨r, e⟩ := re
    have hr := h (r, e) (by simp)
    match hl : lookupA r group with
    | none =>
      rw [hl] at hr
      simp at hr
    | some p =>
      simp only [genRun, hl, List.map_cons]
      rw [ih (fun x hx => h x (List.mem_cons_of_mem _ hx))]
      simp [hl]

theorem genRun_missing (group : PoseMap) (pre post : Errors) (r : Nat) (e : ErrMat)
    (hpre : ∀ re ∈ pre, (lookupA re.1 group).isSome)
    (hr : lookupA r group = none) :
    genRun group (pre ++ (r, e) :: post) =
      (pre.map (fun re => (re.1, (lookupA re.1 group).getD defaultPose, re.2)),
        some r) := by
  induction pre with
  | nil => simp [genRun, hr]
  | cons re rest ih =>
    obtain ⟨r0, e0⟩ := re
    have h0 := hpre (r0, e0) (by simp)
    match hl : lookupA r0 group with
    | none =>
      rw [hl] at h0
      simp at h0
    | some p =>
      simp only [List.cons_append, genRun, hl, List.map_cons, List.append_eq]
      rw [ih (fun x hx => hpre x (List.mem_cons_of_mem _ hx))]
      simp [hl]

/-- Claim C4: `_generator_poses` on an empty group fails immediately with the
assertion, before any triple is produced; on a nonempty group it produces one
triple per rank of the error-matrix table (not per rank of the group), each
structure obtained by rank lookup into the group; and a rank present in the
error table but absent from the group raises `KeyError` mid-iteration, after
the triples of the preceding ranks were produced, rather than being
pre-validated upfront. -/
theorem c4_generator_contract (group : PoseMap) (groupname : String)
    (errors : Errors) :
    (group.length = 0 →
      _generator_poses group groupname errors =
        .error (.assertionError (assertGroupMsg groupname))) ∧
    (group.length ≠ 0 → (∀ re ∈ errors, (lookupA re.1 group).isSome) →
      _generator_poses group groupname errors =
        .ok (errors.map (fun re => (re.1, (lookupA re.1 group).getD defaultPose, re.2)),
          none)) ∧
    (group.length ≠ 0 → ∀ pre r e post,
      errors = pre ++ (r, e) :: post →
      (∀ re ∈ pre, (lookupA re.1 group).isSome) →
      lookupA r group = none →
      _generator_poses group groupname errors =
        .ok (pre.map (fun re => (re.1, (lookupA re.1 group).getD defaultPose, re.2)),
          some r)) := by
  refine ⟨?_, ?_, ?_⟩
  · intro h
    simp [_generator_poses, h]
  · intro hne hall
    simp [_generator_poses, hne, genRun_all_present group errors hall]
  · intro hne pre r e post heq hpre hr
    subst heq
    simp [_generator_poses, hne, genRun_missing group pre post r e hpre hr]

/-- Witness for C4: the three branches at concrete registries — empty group,
aligned group, and a rank (7) present in the error table but missing from the
group, which key-faults after producing the rank-1 triple. -/
theorem c4_generator_contract_witness :
    _generator_poses [] "relaxed" [(1, errW)] =
      .error (.assertionError (assertGroupMsg "relaxed")) ∧
    _generator_poses [(1, poseW)] "relaxed" [(1, errW)] =
      .ok ([(1, poseW, errW)], none) ∧
    _generator_poses [(1, poseW)] "relaxed" [(1, errW), (7, errW)] =
      .ok ([(1, poseW, errW)], some 7) := by
  refine ⟨(c4_generator_contract [] "relaxed" [(1, errW)]).1 rfl, ?_, ?_⟩
  · rw [(c4_generator_contract [(1, poseW)] "relaxed" [(1, errW)]).2.1
      (by decide) (by decide)]
    rfl
  · rw [(c4_generator_contract [(1, poseW)] "relaxed" [(1, errW), (7, errW)]).2.2
      (by decide) [(1, errW)] 7 errW [] rfl (by decide) (by decide)]
    rfl

/-! ## Claim C6: clone-at-most-once in `sidechain_relax` / `relax` -/

theorem length_ne_zero_of_lookup_isSome {α β : Type} [DecidableEq α] {k : α}
    {l : List (α × β)} (h : (lookupA k l).isSome) : l.length ≠ 0 := by
  cases l with
  | nil => simp [lookupA] at h
  | cons hd tl => simp

/-- Specification of the shared loop of `sidechain_relax` and `relax`: when
the `original` group covers every error-table rank and the ranks are
distinct, the loop succeeds; ranks outside the error table are untouched,
and each error-table rank ends up holding one relax pass applied to the
pre-existing `relaxed` entry when there was one, and to a fresh clone of the
`original` pose otherwise. -/
theorem relaxGroupLoop_spec (cfg : RelaxCfg) (orig : PoseMap) :
    ∀ (errs : Errors), (errs.map Prod.fst).Nodup →
      (∀ re ∈ errs, (lookupA re.1 orig).isSome) →
      ∀ relaxed, ∃ relaxed2,
        relaxGroupLoop cfg orig errs relaxed = .ok relaxed2 ∧
        (∀ k, k ∉ errs.map Prod.fst → lookupA k relaxed2 = lookupA k relaxed) ∧
        (∀ r e, (r, e) ∈ errs → lookupA r relaxed2 =
          some (applyRelax cfg ((lookupA r relaxed).getD
            (Pose.clone ((lookupA r orig).getD defaultPose))))) := by
  intro errs
  induction errs with
  | nil =>
    intro _ _ relaxed
    exact ⟨relaxed, rfl, fun k _ => rfl, by simp⟩
  | cons re rest ih =>
    obtain ⟨r0, e0⟩ := re
    intro hnd hcov relaxed
    rw [List.map_cons] at hnd
    obtain ⟨hr0nin, hndr⟩ := List.nodup_cons.mp hnd
    have h0 : (lookupA r0 orig).isSome := hcov (r0, e0) (by simp)
    obtain ⟨p0, hp0⟩ := Option.isSome_iff_exists.mp h0
    have hcovr : ∀ re ∈ rest, (lookupA re.1 orig).isSome :=
      fun x hx => hcov x (List.mem_cons_of_mem _ hx)
    cases hrel : lookupA r0 relaxed with
    | some q =>
      obtain ⟨relaxed2, hrun, hout, hmem⟩ :=
        ih hndr hcovr (setA r0 (applyRelax cfg q) relaxed)
      refine ⟨relaxed2, ?_, ?_, ?_⟩
      · simp only [relaxGroupLoop, hp0, hrel, Option.isSome_some, if_pos]
        exact hrun
      · intro k hk
        simp only [List.map_cons, List.mem_cons, not_or] at hk
        obtain ⟨hk0, hk1⟩ := hk
        rw [hout k hk1, lookupA_setA_ne hk0]
      · intro r e hre
        rcases List.mem_cons.mp hre with heq | hmem2
        · cases heq
          rw [hout r0 hr0nin, lookupA_setA_self, hrel, hp0]
          simp
        · have hrne : r ≠ r0 := by
            intro hcontra
            subst hcontra
            exact hr0nin (List.mem_map.mpr ⟨(r, e), hmem2, rfl⟩)
          rw [hmem r e hmem2, lookupA_setA_ne hrne]
    | none =>
      obtain ⟨relaxed2, hrun, hout, hmem⟩ :=
        ih hndr hcovr (setA r0 (applyRelax cfg p0.clone) (setA r0 p0.clone relaxed))
      refine ⟨relaxed2, ?_, ?_, ?_⟩
      · simp only [relaxGroupLoop, hp0, hrel, Option.isSome_none,
          Bool.false_eq_true, if_false, lookupA_setA_self]
        exact hrun
      · intro k hk
        simp only [List.map_cons, List.mem_cons, not_or] at hk
        obtain ⟨hk0, hk1⟩ := hk
        rw [hout k hk1, lookupA_setA_ne hk0, lookupA_setA_ne hk0]
      · intro r e hre
        rcases List.mem_cons.mp hre with heq | hmem2
        · cases heq
          rw [hout r0 hr0nin, lookupA_setA_self, hrel, hp0]
          simp
        · have hrne : r ≠ r0 := by
            intro hcontra
            subst hcontra
            exact hr0nin (List.mem_map.mpr ⟨(r, e), hmem2, rfl⟩)
          rw [hmem r e hmem2, lookupA_setA_ne hrne, lookupA_setA_ne hrne]

theorem dGColumn_ok (relaxed : PoseMap) :
    ∀ ranks : List Nat, (∀ rk ∈ ranks, (lookupA rk relaxed).isSome) →
      ∃ vs, dGColumn relaxed ranks = .ok vs := by
  intro ranks
  induction ranks with
  | nil => exact fun _ => ⟨[], rfl⟩
  | cons rk rest ih =>
    intro h
    obtain ⟨p, hp⟩ := Option.isSome_iff_exists.mp (h rk (by simp))
    obtain ⟨vs, hvs⟩ := ih (fun x hx => h x (List.mem_cons_of_mem _ hx))
    exact ⟨scorePose p :: vs, by simp only [dGColumn, hp, hvs]⟩

/-- Claim C6: for a rank already present in `relaxed` (holding `q`), both
`sidechain_relax` and `relax` do not re-clone from `original`: the new
`relaxed` entry is exactly one more relax pass applied to the existing entry
`q`, whatever `q` is. -/
theorem c6_clone_at_most_once (st : AnalyserState) (orig : PoseMap) (r : Nat)
    (e : ErrMat) (q : Pose) (cyc1 cyc2 : Nat)
    (ho : st.originalPoses = some orig)
    (hnd : (st.errors.map Prod.fst).Nodup)
    (hcov : ∀ re ∈ st.errors, (lookupA re.1 orig).isSome)
    (hre : (r, e) ∈ st.errors)
    (hq : lookupA r st.relaxedPoses = some q)
    (hscores : ∀ rk ∈ st.scores.ranks,
      rk ∈ st.errors.map Prod.fst ∨ (lookupA rk st.relaxedPoses).isSome) :
    (∃ st1, sidechain_relax st cyc1 = .ok st1 ∧
        lookupA r st1.relaxedPoses = some (applyRelax (sidechainCfg cyc1) q)) ∧
    (∃ st2, relax st cyc2 = .ok st2 ∧
        lookupA r st2.relaxedPoses = some (applyRelax (fullCfg cyc2) q)) := by
  have hlen : orig.length ≠ 0 :=
    length_ne_zero_of_lookup_isSome (hcov (r, e) hre)
  constructor
  · obtain ⟨rel2, hrun, hout, hmem⟩ :=
      relaxGroupLoop_spec (sidechainCfg cyc1) orig st.errors hnd hcov st.relaxedPoses
    refine ⟨{ st with relaxedPoses := rel2 }, ?_, ?_⟩
    · simp [sidechain_relax, ho, hlen, hrun]
    · have h := hmem r e hre
      rw [hq] at h
      simpa using h
  · obtain ⟨rel2, hrun, hout, hmem⟩ :=
      relaxGroupLoop_spec (fullCfg cyc2) orig st.errors hnd hcov st.relaxedPoses
    have hall : ∀ rk ∈ st.scores.ranks, (lookupA rk rel2).isSome := by
      intro rk hrk
      by_cases hin : rk ∈ st.errors.map Prod.fst
      · obtain ⟨re2, hre2, hfst⟩ := List.mem_map.mp hin
        have := hmem re2.1 re2.2 (by simpa using hre2)
        rw [hfst] at this
        simp [this]
      · rcases hscores rk hrk with h | h
        · exact absurd h hin
        · rw [hout rk hin]
          exact h
    obtain ⟨vs, hvs⟩ := dGColumn_ok rel2 st.scores.ranks hall
    refine ⟨{ st with relaxedPoses := rel2, scores := setCol st.scores "dG" (vs.map PyVal.rat) }, ?_, ?_⟩
    · simp [relax, ho, hlen, hrun, hvs]
    · have h := hmem r e hre
      rw [hq] at h
      simpa using h

/-- Witness for C6: rank 1 is already present in `relaxed` as `poseQ` (which
already carries one pass, so it is not a fresh clone of `poseW`); both
refinements extend `poseQ` by one pass instead of re-cloning `poseW`. -/
theorem c6_clone_at_most_once_witness :
    (∃ st1, sidechain_relax stC6 5 = .ok st1 ∧
        lookupA 1 st1.relaxedPoses = some (applyRelax (sidechainCfg 5) poseQ)) ∧
    (∃ st2, relax stC6 3 = .ok st2 ∧
        lookupA 1 st2.relaxedPoses = some (applyRelax (fullCfg 3) poseQ)) :=
  c6_clone_at_most_once stC6 [(1, poseW)] 1 errW poseQ 5 3 rfl (by decide)
    (by decide) (by decide) (by decide) (by decide)

/-! ## Claim C7: `constrain` -/

theorem constrainLoop_spec :
    ∀ (errs : Errors), (errs.map Prod.fst).Nodup →
      ∀ g, (∀ re ∈ errs, (lookupA re.1 g).isSome) →
      ∃ g2, constrainLoop errs g = .ok g2 ∧
        (∀ k, k ∉ errs.map Prod.fst → lookupA k g2 = lookupA k g) ∧
        (∀ r e, (r, e) ∈ errs → lookupA r g2 =
          some (addInterchainPaeConstraints
            (addPaeConstraints ((lookupA r g).getD defaultPose) e) e 15)) := by
  intro errs
  induction errs with
  | nil =>
    intro _ g _
    exact ⟨g, rfl, fun k _ => rfl, by simp⟩
  | cons re rest ih =>
    obtain ⟨r0, e0⟩ := re
    intro hnd g hcov
    rw [List.map_cons] at hnd
    obtain ⟨hr0nin, hndr⟩ := List.nodup_cons.mp hnd
    obtain ⟨p0, hp0⟩ := Option.isSome_iff_exists.mp (hcov (r0, e0) (by simp))
    have hcovr : ∀ re ∈ rest,
        (lookupA re.1
          (setA r0 (addInterchainPaeConstraints (addPaeConstraints p0 e0) e0 15) g)).isSome := by
      intro x hx
      by_cases hxk : x.1 = r0
      · rw [hxk, lookupA_setA_self]
        rfl
      · rw [lookupA_setA_ne hxk]
        exact hcov x (List.mem_cons_of_mem _ hx)
    obtain ⟨g2, hrun, hout, hmem⟩ := ih hndr _ hcovr
    refine ⟨g2, ?_, ?_, ?_⟩
    · simp only [constrainLoop, hp0]
      exact hrun
    · intro k hk
      simp only [List.map_cons, List.mem_cons, not_or] at hk
      obtain ⟨hk0, hk1⟩ := hk
      rw [hout k hk1, lookupA_setA_ne hk0]
    · intro r e hre
      rcases List.mem_cons.mp hre with heq | hmem2
      · cases heq
        rw [hout r0 hr0nin, lookupA_setA_self, hp0]
        simp
      · have hrne : r ≠ r0 := by
          intro hcontra
          subst hcontra
          exact hr0nin (List.mem_map.mpr ⟨(r, e), hmem2, rfl⟩)
        rw [hmem r e hmem2, lookupA_setA_ne hrne]

/-- Counterexample for C7 as stated: in the state `stC7` the chosen group
`relaxed` holds rank 5, the `original` group is nonempty, and the error table
is empty; `constrain` succeeds without making any constraint-derivation call
for rank 5 (its constraint list stays empty), contradicting one call pair per
rank of the chosen group. -/
theorem c7_counterexample_group_rank_skipped :
    constrain stC7 "relaxed" = .ok stC7 ∧
    lookupA 5 stC7.relaxedPoses = some defaultPose ∧
    defaultPose.csts = [] := ⟨rfl, rfl, rfl⟩

/-- Claim C7 amended: `constrain` raises the load-poses error whenever the
`original` group is empty, even when iterating a different group; otherwise,
for each rank of the error-matrix table it makes the two
constraint-derivation calls on the pose found by rank lookup in the chosen
group — one whole-structure, one restricted to inter-chain pairs with the
fixed cutoff 15 — and touches no other rank. -/
theorem c7_amended_constrain (st : AnalyserState) (orig : PoseMap)
    (groupname : String) (ho : st.originalPoses = some orig) :
    (orig.length = 0 →
      constrain st groupname = .error (.valueError "Load poses first.")) ∧
    (∀ grp, orig.length ≠ 0 → getGroup st groupname = .ok grp →
      grp.length ≠ 0 → (st.errors.map Prod.fst).Nodup →
      (∀ re ∈ st.errors, (lookupA re.1 grp).isSome) →
      ∃ grp2, constrain st groupname = .ok (setGroup st groupname grp2) ∧
        (∀ r e, (r, e) ∈ st.errors → lookupA r grp2 =
          some (addInterchainPaeConstraints
            (addPaeConstraints ((lookupA r grp).getD defaultPose) e) e 15)) ∧
        (∀ k, k ∉ st.errors.map Prod.fst → lookupA k grp2 = lookupA k grp)) := by
  constructor
  · intro hlen
    simp [constrain, ho, hlen]
  · intro grp hlen hgrp hglen hnd hcov
    obtain ⟨g2, hrun, hout, hmem⟩ := constrainLoop_spec st.errors hnd grp hcov
    refine ⟨g2, ?_, hmem, hout⟩
    simp [constrain, ho, hlen, hgrp, hglen, hrun]

/-- Witness for C7 (amended): the load-poses failure with an empty `original`
while iterating `phospho`, and the two recorded constraint calls (cutoff 15)
on the rank-1 entry of `relaxed`. -/
theorem c7_amended_constrain_witness :
    constrain stEmptyOrig "phospho" = .error (.valueError "Load poses first.") ∧
    (∃ grp2, constrain stC6 "relaxed" = .ok (setGroup stC6 "relaxed" grp2) ∧
      (∀ r e, (r, e) ∈ stC6.errors → lookupA r grp2 =
        some (addInterchainPaeConstraints
          (addPaeConstraints ((lookupA r [(1, poseQ)]).getD defaultPose) e) e 15)) ∧
      (∀ k, k ∉ stC6.errors.map Prod.fst → lookupA k grp2 = lookupA k [(1, poseQ)])) := by
  constructor
  · exact (c7_amended_constrain stEmptyOrig [] "phospho" rfl).1 rfl
  · exact (c7_amended_constrain stC6 [(1, poseW)] "relaxed" rfl).2 [(1, poseQ)]
      (by decide) rfl (by decide) (by decide) (by decide)

/-! ## Claim C9: the dead `Load poses first.` guard of `relax` -/

theorem relaxGroupLoop_error_shape (cfg : RelaxCfg) (orig : PoseMap) :
    ∀ (errs : Errors) (relaxed : PoseMap) (err : PyErr),
      relaxGroupLoop cfg orig errs relaxed = .error err →
      ∃ r, err = PyErr.keyError r := by
  intro errs
  induction errs with
  | nil =>
    intro relaxed err h
    exact absurd h (by simp [relaxGroupLoop])
  | cons re rest ih =>
    obtain ⟨r0, e0⟩ := re
    intro relaxed err h
    simp only [relaxGroupLoop] at h
    cases hl : lookupA r0 orig with
    | none =>
      simp only [hl] at h
      exact ⟨r0, (Except.error.inj h).symm⟩
    | some p =>
      simp only [hl] at h
      by_cases hc : (lookupA r0 relaxed).isSome
      · obtain ⟨q, hq⟩ := Option.isSome_iff_exists.mp hc
        simp only [hq, Option.isSome_some, if_true] at h
        exact ih _ err h
      · have hc' : (lookupA r0 relaxed).isSome = false := by simpa using hc
        simp only [hc', Bool.false_eq_true, if_false, lookupA_setA_self] at h
        exact ih _ err h

theorem dGColumn_error_shape (relaxed : PoseMap) :
    ∀ (ranks : List Nat) (err : PyErr),
      dGColumn relaxed ranks = .error err → ∃ r, err = PyErr.keyError r := by
  intro ranks
  induction ranks with
  | nil =>
    intro err h
    exact absurd h (by simp [dGColumn])
  | cons rk rest ih =>
    intro err h
    simp only [dGColumn] at h
    cases hl : lookupA rk relaxed with
    | none =>
      simp only [hl] at h
      exact ⟨rk, (Except.error.inj h).symm⟩
    | some p =>
      simp only [hl] at h
      cases hd : dGColumn relaxed rest with
      | error e2 =>
        simp only [hd] at h
        obtain ⟨r, hr⟩ := ih e2 hd
        exact ⟨r, (Except.error.inj h) ▸ hr⟩
      | ok vs =>
        simp only [hd] at h
        exact absurd h (by simp)

/-- Claim C9: the `Load poses first.` guard of `relax` never fires for an
analyser built by the constructor: `original_poses` is always a dict (`some`)
and is compared against `None`, so on an empty `original` group `relax`
instead fails through the iterate assertion `The group original is not
loaded`. -/
theorem c9_load_poses_guard_dead :
    (∀ (d : Disk) (lp : Bool) (st : AnalyserState),
      initAnalyser d lp = .ok st → st.originalPoses.isSome) ∧
    (∀ (st : AnalyserState) (cycles : Nat), st.originalPoses.isSome →
      relax st cycles ≠ .error (.valueError "Load poses first.")) ∧
    (∀ (st : AnalyserState) (cycles : Nat), st.originalPoses = some [] →
      relax st cycles = .error (.assertionError (assertGroupMsg "original"))) := by
  refine ⟨?_, ?_, ?_⟩
  · intro d lp st h
    simp only [initAnalyser] at h
    split at h
    · exact absurd h (by simp)
    · split at h
      · exact absurd h (by simp)
      · split at h
        · exact absurd h (by simp)
        · injection h with h2
          rw [← h2]
          rfl
  · intro st cycles hs heq
    obtain ⟨orig, ho⟩ := Option.isSome_iff_exists.mp hs
    simp only [relax, ho] at heq
    by_cases hlen : orig.length = 0
    · rw [if_pos hlen] at heq
      exact PyErr.noConfusion (Except.error.inj heq)
    · rw [if_neg hlen] at heq
      cases h1 : relaxGroupLoop (fullCfg cycles) orig st.errors st.relaxedPoses with
      | error e =>
        simp only [h1] at heq
        obtain ⟨r, hr⟩ :=
          relaxGroupLoop_error_shape (fullCfg cycles) orig st.errors st.relaxedPoses e h1
        rw [hr] at heq
        exact PyErr.noConfusion (Except.error.inj heq)
      | ok rel2 =>
        simp only [h1] at heq
        cases h2 : dGColumn rel2 st.scores.ranks with
        | error e =>
          simp only [h2] at heq
          obtain ⟨r, hr⟩ := dGColumn_error_shape rel2 st.scores.ranks e h2
          rw [hr] at heq
          exact PyErr.noConfusion (Except.error.inj heq)
        | ok vs =>
          simp only [h2] at heq
          exact Except.noConfusion heq
  · intro st cycles ho
    simp [relax, ho]

/-- Witness for C9: the concrete constructed analyser `stW` has a dict
`original_poses`; `relax` on it cannot fail with `Load poses first.`, and on
an empty `original` group it fails with the iterate assertion. -/
theorem c9_load_poses_guard_dead_witness :
    stW.originalPoses.isSome = true ∧
    relax stW 3 ≠ .error (.valueError "Load poses first.") ∧
    relax stEmptyOrig 3 = .error (.assertionError (assertGroupMsg "original")) :=
  ⟨c9_load_poses_guard_dead.1 diskW true stW rfl,
   c9_load_poses_guard_dead.2.1 stW 3 (c9_load_poses_guard_dead.1 diskW true stW rfl),
   c9_load_poses_guard_dead.2.2 stEmptyOrig 3 rfl⟩

/-! ## Claim C3: `calculate_interface` before any `dG` column -/

/-- Counterexample for C3 as stated: in the state `stC3` no `dG` column
exists, yet `calculate_interface` is not a silent no-op — the median
computation runs first and its `find_interface_residues` assertion on the
empty `relaxed` group raises. -/
theorem c3_counterexample_raises :
    hasCol stC3.scores "dG" = false ∧
    calculate_interface stC3 "A_B" =
      .error (.assertionError "No poses loaded yet!") := ⟨rfl, rfl⟩

/-- Claim C3 amended: when the interface-residue columns were already
computed (so `find_interface_residues` early-returns) and the median
computation succeeds, calling `calculate_interface` with no `dG` column
leaves the catalog and the whole analyser state unchanged and raises no
error; without those columns the call first runs interface-residue
discovery, which can raise or append four columns before the `dG` check. -/
theorem c3_amended_noop (st : AnalyserState) (iface : String)
    (hN : hasCol st.scores "N_interchain_residues_1" = true)
    (hdG : hasCol st.scores "dG" = false)
    (hmed : exceptIsOk (get_median_interface_bfactors st) = true) :
    calculate_interface st iface = .ok st := by
  have hfind : find_interface_residues st = .ok st := by
    unfold find_interface_residues
    rw [hN]
    simp
  unfold get_median_interface_bfactors at hmed
  unfold calculate_interface get_median_interface_bfactors
  rw [hfind] at hmed ⊢
  cases h1 : getCol st.scores "interchain_residues_1" with
  | none =>
    simp only [h1, exceptIsOk] at hmed
    exact Bool.noConfusion hmed
  | some c1 =>
    cases h2 : getCol st.scores "interchain_residues_2" with
    | none =>
      simp only [h1, h2, exceptIsOk] at hmed
      exact Bool.noConfusion hmed
    | some c2 =>
      cases h3 : mediansLoop st.relaxedPoses (zip3 st.scores.ranks c1 c2) with
      | error e =>
        simp only [h1, h2, h3, exceptIsOk] at hmed
        exact Bool.noConfusion hmed
      | ok ms =>
        simp only [h1, h2, h3]
        simp [hdG]

/-- Witness for C3 (amended): with the interface columns present and no `dG`
column, `calculate_interface` returns the state unchanged. -/
theorem c3_amended_noop_witness :
    calculate_interface stC3W "A_B" = .ok stC3W :=
  c3_amended_noop stC3W "A_B" rfl rfl rfl

/-! ## Claim C2: the `dump` / `load` round-trip -/

/-- Claim C2 (code bug): the round-trip can never succeed because `dump`
always raises: after writing `scores.csv` and the relaxed PDBs it executes
`open(os.path.join(folder, 'errors.p', 'w'))`, whose mode string is consumed
as a path component — `FileNotFoundError` when `folder/errors.p/w` is absent,
and an unwritable read-mode handle for `pickle.dump` when present.
Independently, the rank pattern `rank(\d+)\.pdb` used by `load` does not
match the filenames `rank_{i}_pyrosetta_{group}.pdb` that `dump_pdbs`
writes. -/
theorem c2_dump_never_completes (st : AnalyserState) (folder : Option String)
    (fs : FS) :
    (∃ e, dump st folder fs = .error e) ∧
    rankerSearch (dumpPdbName "" 1 "relaxed") = none := by
  constructor
  · cases h : dump_pdbs st "relaxed" (some (_parse_folder_argument st folder)) ""
        (pathJoin (_parse_folder_argument st folder) "scores.csv" :: fs) with
    | error e =>
      exact ⟨e, by simp only [dump, h]⟩
    | ok fs2 =>
      by_cases hc : fs2.contains
          (pathJoin (pathJoin (_parse_folder_argument st folder) "errors.p") "w") = true
      · exact ⟨.unsupportedOperation "not writable", by simp only [dump, h, hc, if_true]⟩
      · have hc' : fs2.contains
            (pathJoin (pathJoin (_parse_folder_argument st folder) "errors.p") "w") = false := by
          simpa using hc
        exact ⟨.fileNotFound
          (pathJoin (pathJoin (_parse_folder_argument st folder) "errors.p") "w"),
          by simp only [dump, h, hc', Bool.false_eq_true, if_false]⟩
  · rfl

/-- Claim C1 (code bug): `_add_settings` on a directory with no settings file
emits the warning and fills the pLDDT / pTMscore columns with the sentinel
100 for every row, but then still raises `FileNotFoundError`, because the
missing-file branch has no early return before `with open(settings_filename)`
(multimodel.py:113-117). -/
theorem c1_add_settings_missing_raises (folder : String)
    (triples : List (Nat × Rat × Rat)) (scores : DataFrame) :
    (_add_settings folder false triples scores).2.2 =
        some (PyErr.fileNotFound (pathJoin folder "settings.txt")) ∧
    (_add_settings folder false triples scores).2.1 =
        [settingsWarn (pathJoin folder "settings.txt")] ∧
    getCol (_add_settings folder false triples scores).1 "pLDDT" =
        some (scores.ranks.map (fun _ => PyVal.int 100)) ∧
    getCol (_add_settings folder false triples scores).1 "pTMscore" =
        some (scores.ranks.map (fun _ => PyVal.int 100)) := by
  refine ⟨rfl, rfl, ?_, ?_⟩
  · show lookupA "pLDDT" (setA "pTMscore" _ (setA "pLDDT" _ scores.cols)) = _
    rw [lookupA_setA_ne (by decide), lookupA_setA_self]
  · show lookupA "pTMscore" (setA "pTMscore" _ (setA "pLDDT" _ scores.cols)) = _
    rw [lookupA_setA_self]

end AF2
